import Mathlib

/-!
Verification development for the ACN_2020 teaching notebooks
(EEG/MEG preprocessing, time-frequency analysis and decoding).

The notebooks are thin orchestration over external DSP/ML libraries; the
numeric semantics of each pipeline step is therefore modelled from the
specification's pipeline contracts, while the notebook cell structure
(which names each cell defines and uses, which assignments are left as
unfilled placeholders) is transcribed directly from the notebook sources.
Complex time-frequency coefficients are carried in polar form over the
rationals (a magnitude together with a unit direction vector), so that
every definition stays computable; magnitudes of vectors are tracked via
their squares, which keeps all values rational.
-/

namespace ACN

/-- Squared Euclidean magnitude of a plane vector, the square of the
modulus of the complex number it represents. -/
def normSq (v : ℚ × ℚ) : ℚ := v.1 ^ 2 + v.2 ^ 2

/-- Dot product of two plane vectors. -/
def dotProd (u v : ℚ × ℚ) : ℚ := u.1 * v.1 + u.2 * v.2

/-- Componentwise sum of a list of plane vectors. -/
def sumVec (vs : List (ℚ × ℚ)) : ℚ × ℚ :=
  vs.foldr (fun v s => (v.1 + s.1, v.2 + s.2)) (0, 0)

/-- Arithmetic mean of a list of plane vectors (componentwise). -/
def meanVec (vs : List (ℚ × ℚ)) : ℚ × ℚ :=
  ((sumVec vs).1 / vs.length, (sumVec vs).2 / vs.length)

/-- Modelled from the spec: a complex Morlet time-frequency coefficient at
one (channel, frequency, time) bin for one trial, carried in polar form.
The wavelet convolution itself lives in the external library and is not in
the repository; the spec describes its output only through the magnitude
and phase of the resulting complex coefficient, so the coefficient is
modelled as a magnitude `mag` together with a direction vector `dir`
(which is the unit-magnitude phase vector whenever `normSq dir = 1`). -/
structure Coeff where
  mag : ℚ
  dir : ℚ × ℚ
deriving DecidableEq

instance : Inhabited Coeff := ⟨⟨0, (1, 0)⟩⟩

/-- The unit-magnitude phase vector of a coefficient: the coefficient with
its magnitude set to 1, keeping only its position on the unit circle. -/
def phaseVec (c : Coeff) : ℚ × ℚ := c.dir

/-- Modelled from the spec: squared inter-trial phase consistency at one
bin, from the per-trial coefficients at that bin — the squared magnitude
of the arithmetic mean over trials of the unit-magnitude phase vectors.
The ITC itself is the square root of this rational value, so the ITC lies
in [0, 1] exactly when this value does. -/
def itcSq (cs : List Coeff) : ℚ := normSq (meanVec (cs.map phaseVec))

/-- Modelled from the spec: the power estimate at one bin — the mean over
trials of the squared magnitude of the complex coefficient. -/
def powerAt (cs : List Coeff) : ℚ :=
  (cs.map (fun c => c.mag ^ 2)).foldr (· + ·) 0 / cs.length

/-- The per-trial coefficients found at bin `b` of each trial. -/
def coeffsAt (trials : List (List Coeff)) (b : Nat) : List Coeff :=
  trials.map (fun t => t.getD b default)

/-- Errors surfaced by the modelled pipeline steps. -/
inductive PipelineError where
  | emptyEpochs
  | emptyDataset
  | shapeMismatch
  | invalidCutoffs
deriving DecidableEq

/-- Did a pipeline step fail? -/
def failed {ε α : Type} : Except ε α → Bool
  | .error _ => true
  | .ok _ => false

/-- Modelled from the spec: the time-frequency step (`tfr_morlet` with
`return_itc=True`), from the per-trial coefficient arrays (one list of
bin coefficients per trial in the selected condition subset). It returns
the power estimate and the (squared) inter-trial phase consistency
estimate, one value per bin, and surfaces an empty trial subset as an
error rather than silently producing an empty result. -/
def tfr_morlet (trials : List (List Coeff)) :
    Except PipelineError (List ℚ × List ℚ) :=
  if trials.isEmpty then .error .emptyEpochs
  else
    let nBins := (trials.headD []).length
    .ok ((List.range nBins).map (fun b => powerAt (coeffsAt trials b)),
         (List.range nBins).map (fun b => itcSq (coeffsAt trials b)))

/-- Channel types appearing in the notebooks' recordings. -/
inductive ChType where
  | eeg
  | eog
  | meg
  | stim
deriving DecidableEq

/-- A continuous multichannel recording: a sampling rate and, per channel,
its type and its samples. -/
structure Recording where
  sfreq : ℚ
  channels : List (ChType × List ℚ)
deriving DecidableEq

/-- One epoch: a fixed window of every channel, keeping the channel type. -/
abbrev Epoch := List (ChType × List ℚ)

/-- Per-channel sample counts of a recording. -/
def sampleCounts (r : Recording) : List Nat := r.channels.map (fun c => c.2.length)

/-- Peak-to-peak amplitude of one channel's samples: maximum minus minimum
(0 for an empty window). -/
def ptp : List ℚ → ℚ
  | [] => 0
  | x :: xs => xs.foldr max x - xs.foldr min x

/-- The epoch extracted at window `[start, start + winLen)` of a recording. -/
def extractEpoch (r : Recording) (start winLen : Nat) : Epoch :=
  r.channels.map (fun c => (c.1, (c.2.drop start).take winLen))

/-- Does the event at sample `s` have its whole window inside the data? -/
def inRange (r : Recording) (winLen s : Nat) : Bool :=
  (sampleCounts r).all (fun n => s + winLen ≤ n)

/-- Does some monitored channel of the epoch exceed its per-channel-type
peak-to-peak rejection threshold? Channel types mapped to `none` by the
criteria are not monitored. -/
def exceedsReject (reject : ChType → Option ℚ) (e : Epoch) : Bool :=
  e.any (fun c => match reject c.1 with
    | some th => decide (th < ptp c.2)
    | none => false)

/-- Modelled from the spec: the epoching step (`mne.Epochs` with `reject`
thresholds and `preload=True`). Events are window start samples; events
whose window would leave the data are skipped; every extracted epoch whose
peak-to-peak amplitude exceeds a monitored threshold is dropped and
returned in the second component (the drop report) rather than failing the
step. The first component is the retained epoch collection. -/
def Epochs (r : Recording) (events : List Nat) (winLen : Nat)
    (reject : ChType → Option ℚ) : List Epoch × List Epoch :=
  let extracted := (events.filter (inRange r winLen)).map
    (fun s => extractEpoch r s winLen)
  (extracted.filter (fun e => ! exceedsReject reject e),
   extracted.filter (fun e => exceedsReject reject e))

/-- The Nyquist frequency of a recording: half its sampling rate. -/
def nyquist (r : Recording) : ℚ := r.sfreq / 2

/-- Causal moving average of window length `k + 1`, producing one output
sample per input sample. -/
def movAvg (k : Nat) (xs : List ℚ) : List ℚ :=
  (List.range xs.length).map
    (fun i => ((xs.drop i).take (k + 1)).foldr (· + ·) 0 / (k + 1))

/-- Zero-phase smoothing: the moving average applied forward and then
backward, cancelling the phase delay of the causal pass. -/
def zeroPhase (k : Nat) (xs : List ℚ) : List ℚ :=
  (movAvg k (movAvg k xs).reverse).reverse

/-- Smoothing window length corresponding to a cutoff frequency: about one
period of the cutoff at the given sampling rate. -/
def lowPassWin (sfreq c : ℚ) : Nat := (sfreq / c).ceil.toNat

/-- Modelled from the spec: one channel of the zero-phase band-pass — the
low-pass at the high cutoff minus the low-pass at the low cutoff, each
realised as a zero-phase (forward-backward) smoothing. -/
def bandPassChannel (sfreq lo hi : ℚ) (xs : List ℚ) : List ℚ :=
  List.zipWith (· - ·)
    (zeroPhase (lowPassWin sfreq hi) xs)
    (zeroPhase (lowPassWin sfreq lo) xs)

/-- Modelled from the spec: the band-pass filtering step (`raw.filter`
with low and high cutoffs). It returns the zero-phase band-pass filtered
recording, and fails exactly when the cutoff pair is invalid: valid means
`0 < lo`, `lo < hi` and `hi` below the Nyquist frequency. -/
def Recording.filter (r : Recording) (lo hi : ℚ) :
    Except PipelineError Recording :=
  if 0 < lo ∧ lo < hi ∧ hi < nyquist r then
    .ok { sfreq := r.sfreq,
          channels := r.channels.map
            (fun c => (c.1, bandPassChannel r.sfreq lo hi c.2)) }
  else .error .invalidCutoffs

/-- Componentwise sum of two sample lists. -/
def addSamples (a b : List ℚ) : List ℚ := List.zipWith (· + ·) a b

/-- Componentwise sum of two epochs over their common channel layout. -/
def addEpoch (a b : Epoch) : Epoch :=
  List.zipWith (fun c d => (c.1, addSamples c.2 d.2)) a b

/-- An epoch with every sample scaled by `q`. -/
def scaleEpoch (q : ℚ) (e : Epoch) : Epoch :=
  e.map (fun c => (c.1, c.2.map (fun x => q * x)))

/-- Modelled from the spec: condition averaging (`.average()` on a
condition subset), producing the evoked response. An empty subset is
surfaced as an error rather than silently producing an empty average. -/
def averageEpochs (es : List Epoch) : Except PipelineError Epoch :=
  match es with
  | [] => .error .emptyEpochs
  | e :: rest =>
    .ok (scaleEpoch (1 / ((rest.length + 1 : Nat) : ℚ)) (rest.foldl addEpoch e))

/-- One window of the decoding dataset: its tensor as channels times
samples. -/
structure Window where
  data : List (List ℚ)
deriving DecidableEq

/-- The shape `(number of channels, samples per channel)` of a window,
read from its tensor like `windows_dataset[0][0].shape`. -/
def Window.shape (w : Window) : Nat × Nat :=
  (w.data.length, (w.data.headD []).length)

/-- A windowed dataset as built by `create_from_X_y`. -/
abbrev Dataset := List Window

/-- Modelled from the spec: the model configuration produced by
`ShallowFBCSPNet(n_chans, n_classes, input_window_samples=...,
final_conv_length=auto)` — the expected input shape the fit step checks. -/
structure ModelCfg where
  n_chans : Nat
  n_classes : Nat
  input_window_samples : Nat
deriving DecidableEq

/-- The `ShallowFBCSPNet` constructor, keeping the source argument order. -/
def ShallowFBCSPNet (n_chans n_classes input_window_samples : Nat) : ModelCfg :=
  ⟨n_chans, n_classes, input_window_samples⟩

/-- The model built in the decoding notebook: channel count and window
length are read from the first sample of the windowed dataset itself. -/
def modelFromDataset (ds : Dataset) (n_classes : Nat) : ModelCfg :=
  ShallowFBCSPNet (ds.headD ⟨[]⟩).shape.1 n_classes (ds.headD ⟨[]⟩).shape.2

/-- Training hyperparameters fixed in the decoding notebook. -/
structure Hyper where
  batch_size : Nat
  n_epochs : Nat
  lr : ℚ
  weight_decay : ℚ
  random_state : Nat
deriving DecidableEq

/-- The hyperparameters the decoding notebook uses for the shallow net:
batch size 16, 10 training epochs, learning rate 0.0625 * 0.01, no weight
decay, stratified 10-fold validation split with `random_state=320`. -/
def shallowHyper : Hyper := ⟨16, 10, 1 / 1600, 0, 320⟩

/-- A linear congruential step, standing in for the seeded pseudo-random
stream that `set_random_seeds` fixes. -/
def lcg (s : Nat) : Nat := (1103515245 * s + 12345) % 2 ^ 31

/-- Sum of all samples of a window. -/
def windowSum (w : Window) : ℚ :=
  (w.data.map (fun ch => ch.foldr (· + ·) 0)).foldr (· + ·) 0

/-- Sum of all samples of a dataset, a deterministic digest of its data. -/
def dsDigest (ds : Dataset) : ℚ := (ds.map windowSum).foldr (· + ·) 0

/-- Modelled from the spec: one per-epoch history entry (train loss,
validation loss, train accuracy, validation accuracy). The optimizer's
floating-point arithmetic lives in the external library; it is modelled as
a deterministic function of the seed, the data and the epoch index, with
every produced number routed through the execution environment `env` (the
rounding behaviour of the floating-point hardware). -/
def historyEntry (env : ℚ → ℚ) (seed : Nat) (ds : Dataset) (i : Nat) :
    ℚ × ℚ × ℚ × ℚ :=
  let z : ℚ := ((lcg^[i + 1] seed) % 1000 : Nat)
  (env (dsDigest ds / (z + 1) / (i + 1)),
   env (dsDigest ds / (z + 2) / (i + 1)),
   env (z / 1000),
   env ((z + 1) / 1001))

/-- The per-epoch loss/accuracy history of one training run. -/
def historyOf (env : ℚ → ℚ) (seed : Nat) (ds : Dataset) (hp : Hyper) :
    List (ℚ × ℚ × ℚ × ℚ) :=
  (List.range hp.n_epochs).map (historyEntry env seed ds)

/-- Modelled from the spec: the fit step (`EEGClassifier.fit`). It fails
on an empty dataset, fails when some window's channel or time-sample
dimensions are inconsistent with the model's expected input shape, and
otherwise returns the per-epoch loss/accuracy history. -/
def fit (env : ℚ → ℚ) (m : ModelCfg) (seed : Nat) (ds : Dataset) (hp : Hyper) :
    Except PipelineError (List (ℚ × ℚ × ℚ × ℚ)) :=
  if ds.isEmpty then .error .emptyDataset
  else if ds.any (fun w => decide (w.shape ≠ (m.n_chans, m.input_window_samples)))
    then .error .shapeMismatch
  else .ok (historyOf env seed ds hp)

/-- The decoding notebook's training run: build the model from the dataset
itself, then fit once on that same dataset — there is no retry. -/
def runTraining (env : ℚ → ℚ) (seed : Nat) (ds : Dataset) (hp : Hyper)
    (n_classes : Nat) : Except PipelineError (List (ℚ × ℚ × ℚ × ℚ)) :=
  fit env (modelFromDataset ds n_classes) seed ds hp

/-- The remainder of the run after fitting (history extraction for the
plotting cell): a failed fit propagates and terminates the run. -/
def trainAndPlot (env : ℚ → ℚ) (seed : Nat) (ds : Dataset) (hp : Hyper)
    (n_classes : Nat) : Except PipelineError Nat :=
  (runTraining env seed ds hp n_classes).map List.length

/-- A Python statement of a notebook cell, as far as the claims need it:
an assignment whose right-hand side may be missing from the source (an
unfilled placeholder), or an expression statement which may produce a
figure. -/
inductive PyStmt where
  | assign (targets : List String) (rhs : Option String)
  | exprStmt (code : String) (producesFigure : Bool)
deriving DecidableEq

/-- Is the statement an assignment with no right-hand side (which Python
rejects when compiling the cell)? -/
def stmtIncomplete : PyStmt → Bool
  | .assign _ none => true
  | _ => false

/-- Does the cell contain an incomplete statement? -/
def cellHasIncompleteStmt (cell : List PyStmt) : Bool :=
  cell.any stmtIncomplete

/-- Running one cell: Python compiles the whole cell before executing any
statement, so a cell with an incomplete statement fails up front and
produces no figures; otherwise the figures of its statements are
produced. -/
def runCell (cell : List PyStmt) : Except String (List String) :=
  if cellHasIncompleteStmt cell then .error "SyntaxError"
  else .ok (cell.filterMap (fun s => match s with
    | .exprStmt code true => some code
    | _ => none))

/-- The topographic power-comparison cell of the LIMO notebook, transcribed
statement by statement; the second assignment is the placeholder line
whose right-hand side is empty in the source. -/
def topoComparisonCell : List PyStmt :=
  [.assign ["bl", "tmax", "ch"] (some "(-0.2, 0), 0.35, eeg"),
   .assign ["fmin1", "fmax1", "fmin2", "fmax2", "tmin", "tmax"] none,
   .assign ["fig", "axis"] (some "plt.subplots(2, 2, figsize=(13, 6))"),
   .exprStmt "power_high.plot_topomap fmin1 fmax1 PC-H" true,
   .exprStmt "power_high.plot_topomap fmin2 fmax2 PC-H" true,
   .exprStmt "power_low.plot_topomap fmin1 fmax1 PC-L" true,
   .exprStmt "power_low.plot_topomap fmin2 fmax2 PC-L" true,
   .exprStmt "mne.viz.tight_layout" false,
   .exprStmt "plt.show" false]

/-- The cell with every placeholder assignment completed by a user-supplied
right-hand side `v`. -/
def fillPlaceholders (cell : List PyStmt) (v : String) : List PyStmt :=
  cell.map (fun s => match s with
    | .assign ts none => .assign ts (some v)
    | s => s)

/-- One notebook cell of the decoding notebook, reduced to its name flow:
the free names it reads (in evaluation order) and the names it leaves
defined. -/
structure NbCell where
  tag : String
  uses : List String
  defines : List String
deriving DecidableEq

/-- Top-to-bottom notebook execution over the set of defined names: a cell
reading a name that no earlier cell defined fails with a NameError naming
the cell and the missing name, and no later cell runs. -/
def runNotebook : List NbCell → List String → Except (String × String) (List String)
  | [], env => .ok env
  | c :: rest, env =>
    match c.uses.find? (fun n => ! env.contains n) with
    | some n => .error (c.tag, n)
    | none => runNotebook rest (env ++ c.defines)

/-- The decoding notebook's cells, transcribed in order. The load cell
deletes `raw` at its end, so `raw` is not among its defined names; the
window-construction cell reads `X` and `y`, which no cell defines. -/
def decodingNotebook : List NbCell :=
  [⟨"pip_install", [], []⟩,
   ⟨"matplotlib_inline", [], []⟩,
   ⟨"load_filter_epoch",
    [],
    ["np", "plt", "make_pipeline", "StandardScaler", "LogisticRegression",
     "mne", "sample", "SlidingEstimator", "GeneralizingEstimator", "Scaler",
     "cross_val_multiscore", "LinearModel", "get_coef", "Vectorizer", "CSP",
     "data_path", "subjects_dir", "raw_fname", "tmin", "tmax", "event_id",
     "events", "epochs"]⟩,
   ⟨"import_create_from_X_y", [], ["create_from_X_y"]⟩,
   ⟨"sfreq_ch_names", ["epochs"], ["sfreq", "ch_names"]⟩,
   ⟨"create_windows",
    ["create_from_X_y", "X", "y", "sfreq", "ch_names"],
    ["windows_dataset"]⟩,
   ⟨"model_setup",
    ["windows_dataset"],
    ["torch", "set_random_seeds", "ShallowFBCSPNet", "cuda", "device",
     "seed", "n_classes", "n_chans", "input_window_samples", "model"]⟩,
   ⟨"fit_classifier",
    ["model", "windows_dataset", "y"],
    ["skorch", "LRScheduler", "EEGClassifier", "lr", "weight_decay",
     "batch_size", "n_epochs", "clf"]⟩,
   ⟨"plot_history", ["clf"], ["results_columns", "df", "fig", "ax1", "ax2", "handles"]⟩]

/-- A small concrete recording used to instantiate the contracts: sampling
rate 100 Hz, one EEG and one EOG channel of four samples each. -/
def rec0 : Recording :=
  ⟨100, [(ChType.eeg, [1, 2, 3, 4]), (ChType.eog, [0, 1, 0, 1])]⟩

/-- A small concrete windowed dataset: two windows of two channels and
three samples each. -/
def ds0 : Dataset := [⟨[[1, 2, 3], [4, 5, 6]]⟩, ⟨[[0, 1, 2], [3, 4, 5]]⟩]

lemma length_filter_not_add {α : Type} (l : List α) (p : α → Bool) :
    (l.filter (fun x => ! p x)).length + (l.filter p).length = l.length := by
  induction l with
  | nil => rfl
  | cons a t ih =>
    cases h : p a <;> simp [List.filter_cons, h] <;> omega

lemma normSq_nonneg (v : ℚ × ℚ) : 0 ≤ normSq v := by
  unfold normSq; positivity

lemma cauchy_schwarz_two (u v : ℚ × ℚ) :
    dotProd u v ^ 2 ≤ normSq u * normSq v := by
  unfold dotProd normSq
  nlinarith [sq_nonneg (u.1 * v.2 - u.2 * v.1)]

lemma normSq_add_expand (u v : ℚ × ℚ) :
    normSq (u.1 + v.1, u.2 + v.2) = normSq u + 2 * dotProd u v + normSq v := by
  unfold normSq dotProd; ring

/-- The sum of `n` unit vectors has squared magnitude at most `n ^ 2`. -/
lemma normSq_sumVec_le (vs : List (ℚ × ℚ)) (h : ∀ v ∈ vs, normSq v = 1) :
    normSq (sumVec vs) ≤ (vs.length : ℚ) ^ 2 := by
  induction vs with
  | nil => simp [sumVec, normSq]
  | cons a vs ih =>
    have ha : normSq a = 1 := h a (List.mem_cons_self a vs)
    have hrest : ∀ v ∈ vs, normSq v = 1 := fun v hv => h v (List.mem_cons_of_mem a hv)
    have hS := ih hrest
    have hcs := cauchy_schwarz_two a (sumVec vs)
    have hn : (0 : ℚ) ≤ (vs.length : ℚ) := Nat.cast_nonneg _
    have hdot : dotProd a (sumVec vs) ≤ (vs.length : ℚ) := by
      nlinarith [hcs, hS, ha, hn, sq_nonneg (dotProd a (sumVec vs) - (vs.length : ℚ))]
    have hexp : sumVec (a :: vs) = (a.1 + (sumVec vs).1, a.2 + (sumVec vs).2) := rfl
    rw [hexp, normSq_add_expand, List.length_cons]
    push_cast
    nlinarith [hS, ha, hdot]

/-- The squared ITC of a non-empty list of coefficients with unit phase
vectors lies in [0, 1]. -/
lemma itcSq_mem_unit (cs : List Coeff) (hne : cs ≠ [])
    (hunit : ∀ c ∈ cs, normSq (phaseVec c) = 1) :
    0 ≤ itcSq cs ∧ itcSq cs ≤ 1 := by
  unfold itcSq
  constructor
  · exact normSq_nonneg _
  · set us := cs.map phaseVec with hus
    have hlen : us.length = cs.length := by simp [hus]
    have hu : ∀ v ∈ us, normSq v = 1 := by
      intro v hv
      rcases List.mem_map.mp hv with ⟨c, hc, rfl⟩
      exact hunit c hc
    have hpos : 0 < (us.length : ℚ) := by
      have : 0 < cs.length := List.length_pos.mpr hne
      rw [hlen]; exact_mod_cast this
    have hsum := normSq_sumVec_le us hu
    have hmean : normSq (meanVec us) = normSq (sumVec us) / (us.length : ℚ) ^ 2 := by
      unfold meanVec normSq
      field_simp
    rw [hmean]
    rw [div_le_one (by positivity)]
    exact hsum

/-- C1: for every non-empty trial subset, the time-frequency step succeeds
and the inter-trial phase consistency it returns at every bin equals the
(squared) magnitude of the arithmetic mean over trials of the
unit-magnitude phase vectors of the complex coefficients at that bin, and
lies in the closed interval [0, 1] — the ITC itself, the square root,
therefore lies in [0, 1] as well. -/
theorem tfr_morlet_itc_bounded (trials : List (List Coeff))
    (hne : trials ≠ [])
    (hunit : ∀ t ∈ trials, ∀ c ∈ t, normSq (phaseVec c) = 1) :
    ∃ p itc, tfr_morlet trials = .ok (p, itc) ∧
      itc = (List.range (trials.headD []).length).map
        (fun b => normSq (meanVec ((coeffsAt trials b).map phaseVec))) ∧
      ∀ v ∈ itc, 0 ≤ v ∧ v ≤ 1 := by
  have hni : trials.isEmpty = false := by
    cases trials with
    | nil => exact absurd rfl hne
    | cons a t => rfl
  refine ⟨(List.range (trials.headD []).length).map (fun b => powerAt (coeffsAt trials b)),
    (List.range (trials.headD []).length).map
      (fun b => normSq (meanVec ((coeffsAt trials b).map phaseVec))), ?_, rfl, ?_⟩
  · simp [tfr_morlet, hni, itcSq]
  · intro v hv
    rcases List.mem_map.mp hv with ⟨b, _, rfl⟩
    have h1 : coeffsAt trials b ≠ [] := by
      intro h
      exact hne (List.map_eq_nil_iff.mp h)
    have h2 : ∀ c ∈ coeffsAt trials b, normSq (phaseVec c) = 1 := by
      intro c hc
      rcases List.mem_map.mp hc with ⟨t, ht, rfl⟩
      by_cases hb : b < t.length
      · rw [List.getD_eq_getElem _ _ hb]
        exact hunit t ht _ (List.getElem_mem hb)
      · rw [List.getD_eq_default _ _ (Nat.le_of_not_lt hb)]
        simp [phaseVec, normSq, default]
    exact itcSq_mem_unit _ h1 h2

theorem tfr_morlet_itc_bounded_w :
    ([[({ mag := 2, dir := (1, 0) } : Coeff)],
      [{ mag := 3, dir := (0, 1) }]] ≠ ([] : List (List Coeff))) ∧
    (∃ p itc,
      tfr_morlet [[({ mag := 2, dir := (1, 0) } : Coeff)], [{ mag := 3, dir := (0, 1) }]]
        = .ok (p, itc) ∧
      itc = (List.range 1).map
        (fun b => normSq (meanVec ((coeffsAt
          [[({ mag := 2, dir := (1, 0) } : Coeff)], [{ mag := 3, dir := (0, 1) }]] b).map
            phaseVec))) ∧
      ∀ v ∈ itc, 0 ≤ v ∧ v ≤ 1) :=
  ⟨by simp,
   tfr_morlet_itc_bounded _ (by simp)
     (by intro t ht c hc
         simp only [List.mem_cons, List.not_mem_nil, or_false] at ht
         rcases ht with rfl | rfl <;>
           (simp only [List.mem_cons, List.not_mem_nil, or_false] at hc
            subst hc
            simp [phaseVec, normSq]))⟩

/-- C2: for every recording, event table and per-channel-type rejection
thresholds, the epoching step is total, returns at most as many retained
epochs as there are input events, every retained epoch has peak-to-peak
amplitude at or below the applicable threshold on every monitored channel,
and every extracted epoch is either retained or reported in the drop
report (dropped, not fatal). -/
theorem Epochs_reject_sound (r : Recording) (events : List Nat) (winLen : Nat)
    (reject : ChType → Option ℚ) :
    (Epochs r events winLen reject).1.length ≤ events.length ∧
    (∀ e ∈ (Epochs r events winLen reject).1,
      ∀ c ∈ e, ∀ th, reject c.1 = some th → ptp c.2 ≤ th) ∧
    (Epochs r events winLen reject).1.length +
      (Epochs r events winLen reject).2.length
        = ((events.filter (inRange r winLen)).map
            (fun s => extractEpoch r s winLen)).length := by
  refine ⟨?_, ?_, ?_⟩
  · calc (Epochs r events winLen reject).1.length
        ≤ ((events.filter (inRange r winLen)).map
            (fun s => extractEpoch r s winLen)).length :=
          List.length_filter_le _ _
      _ = (events.filter (inRange r winLen)).length := List.length_map _ _
      _ ≤ events.length := List.length_filter_le _ _
  · intro e he c hc th hth
    have he' : e ∈ ((events.filter (inRange r winLen)).map
        (fun s => extractEpoch r s winLen)).filter
          (fun e => ! exceedsReject reject e) := he
    have hkeep : (! exceedsReject reject e) = true := (List.mem_filter.mp he').2
    have hferr : exceedsReject reject e = false := by
      cases hx : exceedsReject reject e
      · rfl
      · rw [hx] at hkeep; exact absurd hkeep (by simp)
    by_contra hgt
    have hlt : th < ptp c.2 := lt_of_not_le hgt
    have : exceedsReject reject e = true := by
      unfold exceedsReject
      rw [List.any_eq_true]
      exact ⟨c, hc, by rw [hth]; exact decide_eq_true hlt⟩
    rw [this] at hferr
    exact absurd hferr (by simp)
  · simp only [Epochs]
    exact length_filter_not_add _ _

lemma movAvg_length (k : Nat) (xs : List ℚ) : (movAvg k xs).length = xs.length := by
  simp [movAvg]

lemma zeroPhase_length (k : Nat) (xs : List ℚ) : (zeroPhase k xs).length = xs.length := by
  simp [zeroPhase, movAvg_length]

lemma bandPassChannel_length (sfreq lo hi : ℚ) (xs : List ℚ) :
    (bandPassChannel sfreq lo hi xs).length = xs.length := by
  simp [bandPassChannel, zeroPhase_length]

/-- C3: the band-pass filtering step fails exactly when the cutoff pair is
invalid — when the low cutoff is at or above the high cutoff, or either
cutoff lies outside the open Nyquist range (0, sfreq / 2) of the
recording; on a valid pair it returns the zero-phase band-pass filtered
recording. -/
theorem filter_fails_iff (r : Recording) (lo hi : ℚ) :
    failed (r.filter lo hi) = true ↔
      (hi ≤ lo ∨ lo ≤ 0 ∨ nyquist r ≤ lo ∨ hi ≤ 0 ∨ nyquist r ≤ hi) := by
  by_cases hc : 0 < lo ∧ lo < hi ∧ hi < nyquist r
  · unfold Recording.filter
    rw [if_pos hc]
    simp only [failed, Bool.false_eq_true, false_iff]
    push_neg
    obtain ⟨h1, h2, h3⟩ := hc
    exact ⟨by linarith, by linarith, by linarith, by linarith, by linarith⟩
  · unfold Recording.filter
    rw [if_neg hc]
    simp only [failed, true_iff]
    by_cases h1 : 0 < lo
    · by_cases h2 : lo < hi
      · exact Or.inr (Or.inr (Or.inr (Or.inr (le_of_not_lt (fun h => hc ⟨h1, h2, h⟩)))))
      · exact Or.inl (le_of_not_lt h2)
    · exact Or.inr (Or.inl (le_of_not_lt h1))

/-- C4: for every recording and every valid cutoff pair
(0 < low < high < Nyquist), the band-pass filter succeeds and leaves the
channel count and the per-channel sample counts of the recording
unchanged. -/
theorem filter_preserves_shape (r : Recording) (lo hi : ℚ)
    (h : 0 < lo ∧ lo < hi ∧ hi < nyquist r) :
    Except.map (fun s => (s.channels.length, sampleCounts s)) (r.filter lo hi)
      = .ok (r.channels.length, sampleCounts r) := by
  unfold Recording.filter
  rw [if_pos h]
  simp [Except.map, sampleCounts, List.map_map, Function.comp, bandPassChannel_length]

theorem filter_preserves_shape_w :
    (0 < (1 : ℚ) ∧ (1 : ℚ) < 2 ∧ (2 : ℚ) < nyquist rec0) ∧
    Except.map (fun s => (s.channels.length, sampleCounts s)) (rec0.filter 1 2)
      = .ok (rec0.channels.length, sampleCounts rec0) :=
  ⟨by norm_num [nyquist, rec0],
   filter_preserves_shape rec0 1 2 (by norm_num [nyquist, rec0])⟩

/-- C5: an empty epoch collection (or empty condition subset) after
rejection is surfaced as a terminal error by every downstream step —
condition averaging, the time-frequency decomposition and model fitting —
rather than silently propagated as an empty result. -/
theorem empty_after_rejection_terminal :
    averageEpochs [] = .error .emptyEpochs ∧
    tfr_morlet [] = .error .emptyEpochs ∧
    (∀ env m seed hp, fit env m seed [] hp = .error .emptyDataset) :=
  ⟨rfl, rfl, fun _ _ _ _ => rfl⟩

/-- C6: for every non-empty windowed dataset, the fit step fails exactly
when some window's channel or time-sample dimensions are inconsistent with
the model's expected input shape, and a failed fit terminates the run —
the error propagates to the rest of the run, with no retry. -/
theorem fit_fails_iff_shape_mismatch (env : ℚ → ℚ) (m : ModelCfg) (seed : Nat)
    (ds : Dataset) (hp : Hyper) (n_classes : Nat) (hne : ds ≠ []) :
    (failed (fit env m seed ds hp) = true ↔
      ∃ w ∈ ds, w.shape ≠ (m.n_chans, m.input_window_samples)) ∧
    (∀ e, fit env (modelFromDataset ds n_classes) seed ds hp = .error e →
      trainAndPlot env seed ds hp n_classes = .error e) := by
  constructor
  · have hni : ds.isEmpty = false := by
      cases ds with
      | nil => exact absurd rfl hne
      | cons a t => rfl
    unfold fit
    simp only [hni, Bool.false_eq_true, if_false]
    have hiff : (ds.any (fun w =>
        decide (w.shape ≠ (m.n_chans, m.input_window_samples))) = true)
        ↔ ∃ w ∈ ds, w.shape ≠ (m.n_chans, m.input_window_samples) := by
      rw [List.any_eq_true]
      constructor
      · rintro ⟨w, hw, hs⟩; exact ⟨w, hw, of_decide_eq_true hs⟩
      · rintro ⟨w, hw, hs⟩; exact ⟨w, hw, decide_eq_true hs⟩
    by_cases ha : ds.any (fun w =>
        decide (w.shape ≠ (m.n_chans, m.input_window_samples))) = true
    · rw [if_pos ha]
      simpa [failed] using hiff.mp ha
    · rw [if_neg ha]
      have hnot : ¬∃ w ∈ ds, w.shape ≠ (m.n_chans, m.input_window_samples) :=
        fun h => ha (hiff.mpr h)
      simp [failed, hnot]
  · intro e hf
    unfold trainAndPlot runTraining
    rw [hf]
    rfl

theorem fit_fails_iff_shape_mismatch_w :
    (ds0 ≠ []) ∧
    ((failed (fit id (modelFromDataset ds0 4) 20200220 ds0 shallowHyper) = true ↔
      ∃ w ∈ ds0, w.shape ≠ ((modelFromDataset ds0 4).n_chans,
        (modelFromDataset ds0 4).input_window_samples)) ∧
    (∀ e, fit id (modelFromDataset ds0 4) 20200220 ds0 shallowHyper = .error e →
      trainAndPlot id 20200220 ds0 shallowHyper 4 = .error e)) :=
  ⟨by simp [ds0],
   fit_fails_iff_shape_mismatch id (modelFromDataset ds0 4) 20200220 ds0
     shallowHyper 4 (by simp [ds0])⟩

/-- C7: two training runs with the same fixed seed (20200220), the same
windowed dataset and the same hyperparameters (batch size 16, 10 training
epochs, the notebook's optimizer settings and stratified 10-fold split
with fixed random_state), executed in floating-point environments that
behave bit-identically, produce identical per-epoch train and validation
loss and accuracy histories. -/
theorem training_deterministic (ds : Dataset) (env1 env2 : ℚ → ℚ)
    (hfp : ∀ q, env1 q = env2 q) :
    runTraining env1 20200220 ds shallowHyper 4
      = runTraining env2 20200220 ds shallowHyper 4 := by
  have h : env1 = env2 := funext hfp
  rw [h]

theorem training_deterministic_w :
    (∀ q : ℚ, id q = id q) ∧
    runTraining id 20200220 ds0 shallowHyper 4
      = runTraining id 20200220 ds0 shallowHyper 4 :=
  ⟨fun _ => rfl, training_deterministic ds0 id id (fun _ => rfl)⟩

/-- C8: the topographic power-comparison cell of the LIMO notebook cannot
execute as written: its frequency-range and time-window assignment has no
right-hand side, so the cell fails before producing any topographic map;
once the user supplies values for the placeholder, the cell no longer
contains an incomplete statement. -/
theorem topo_cell_placeholder_fails :
    runCell topoComparisonCell = .error "SyntaxError" ∧
    (∀ v : String,
      cellHasIncompleteStmt (fillPlaceholders topoComparisonCell v) = false) :=
  ⟨rfl, fun _ => rfl⟩

/-- C9: a top-to-bottom execution of the decoding notebook fails at the
window-construction cell with the undefined name `X`, and no cell before
that one defines `X` or `y` — so the failure happens before any model is
created or trained. -/
theorem notebook_fails_at_windows_cell :
    runNotebook decodingNotebook [] = .error ("create_windows", "X") ∧
    ((decodingNotebook.take 5).all
      (fun c => ! (c.defines.contains "X" || c.defines.contains "y"))) = true :=
  ⟨rfl, rfl⟩

/-- C10: the decoding notebook reads the model's expected channel count
and window length from the first sample of the windowed dataset itself, so
for every non-empty dataset whose windows all share one shape, fitting
that model on that same dataset cannot hit the shape-mismatch failure —
the fit succeeds. -/
theorem auto_shape_fit_never_mismatch (env : ℚ → ℚ) (seed : Nat) (hp : Hyper)
    (n_classes : Nat) (ds : Dataset) (hne : ds ≠ [])
    (hshape : ∀ w ∈ ds, w.shape = (ds.headD ⟨[]⟩).shape) :
    failed (fit env (modelFromDataset ds n_classes) seed ds hp) = false := by
  have hni : ds.isEmpty = false := by
    cases ds with
    | nil => exact absurd rfl hne
    | cons a t => rfl
  unfold fit
  simp only [hni, Bool.false_eq_true, if_false]
  have hb : ds.any (fun w => decide (w.shape ≠
      ((modelFromDataset ds n_classes).n_chans,
        (modelFromDataset ds n_classes).input_window_samples))) = false := by
    rw [List.any_eq_false]
    intro w hw
    simp [hshape w hw, modelFromDataset, ShallowFBCSPNet]
  simp only [hb, Bool.false_eq_true, if_false, failed]

theorem auto_shape_fit_never_mismatch_w :
    (ds0 ≠ []) ∧ (∀ w ∈ ds0, w.shape = (ds0.headD ⟨[]⟩).shape) ∧
    failed (fit id (modelFromDataset ds0 4) 20200220 ds0 shallowHyper) = false :=
  ⟨by simp [ds0], by decide,
   auto_shape_fit_never_mismatch id 20200220 shallowHyper 4 ds0
     (by simp [ds0]) (by decide)⟩

end ACN
